import Mathlib

/-!
Shallow embedding of the query-range splitting middleware (package `frontend`):
the day splitter, the fan-out gather loop, the merger, the request validator
and the response codec, together with proofs about the spec's claims.

Go `int64` arithmetic uses truncated division and remainder, which on `Int`
are `Int.tdiv` and `Int.tmod`; the embedding uses those.  Overflow of `int64`
is not modelled (all quantities handled by the middleware are far below
`2^63`).
-/

set_option linter.unusedVariables false
set_option linter.unnecessarySimpa false

/-- Milliseconds per UTC day, the constant `millisecondPerDay` of the splitter. -/
def millisecondPerDay : Int := 86400000

/-- The `queryRangeRequest` struct: `start`/`end` are milliseconds since the
epoch, `step` the resolution in milliseconds, `query` the opaque expression.
The Go field `end` is rendered `endTs` because `end` is a Lean keyword; the
struct's `timeout` field is omitted since no code under scrutiny ever sets or
reads it. -/
structure queryRangeRequest where
  start : Int
  endTs : Int
  step : Int
  query : String
  deriving DecidableEq, Inhabited, Repr

/-- `nextDayBoundary(t, step)` from the splitter: round up to the step before
the next day boundary, `((t / D) + 1) * D - (step - (t % D % step))`. -/
def nextDayBoundary (t step : Int) : Int :=
  let offsetToDayBoundary := step - Int.tmod (Int.tmod t millisecondPerDay) step
  (Int.tdiv t millisecondPerDay + 1) * millisecondPerDay - offsetToDayBoundary

/-- The body of the `splitQuery` loop, with explicit fuel.  Each Go iteration
moves `start` past the current UTC day (`nextDayBoundary start step + step`),
so the number of iterations is bounded by the number of days in the range;
`splitQuery` below supplies that much fuel, and `splitQueryGo_spec` proves it
is never exhausted on the loop's actual domain. -/
def splitQueryGo (r : queryRangeRequest) : Nat → Int → List queryRangeRequest
  | 0, _ => []
  | fuel + 1, start =>
    if start < r.endTs then
      let boundary := nextDayBoundary start r.step
      let e := if boundary + r.step ≥ r.endTs then r.endTs else boundary
      { start := start, endTs := e, step := r.step, query := r.query } ::
        splitQueryGo r fuel (boundary + r.step)
    else []

/-- `splitQuery` from the splitter: one sub-request per day, boundaries lined
up with `step`. -/
def splitQuery (r : queryRangeRequest) : List queryRangeRequest :=
  splitQueryGo r (((r.endTs - r.start).tdiv millisecondPerDay).toNat + 2) r.start

/-- `model.ValueType` of the metrics data model: an integer enum whose
`String()` values are used on the wire (`"<ValNone>"`, `"scalar"`, `"vector"`,
`"matrix"`, `"string"`). The zero value is `valNone`. -/
inductive ValueType where
  | valNone
  | valScalar
  | valVector
  | valMatrix
  | valString
  deriving DecidableEq, Inhabited, Repr

/-- `model.ValueType.String()`. -/
def valueTypeString : ValueType → String
  | .valNone => "<ValNone>"
  | .valScalar => "scalar"
  | .valVector => "vector"
  | .valMatrix => "matrix"
  | .valString => "string"

/-- `model.Metric`: a label-name/label-value map.  Modelled as the association
list in wire order (Go's map loses order; every use below either renders it
sorted, as `Metric.String()` does, or compares structurally on single-series
inputs where order is immaterial). -/
abbrev Metric := List (String × String)

/-- `model.SamplePair`: a timestamp in milliseconds and a sample value.  The
value is a `float64` in Go but is carried verbatim as its wire string here:
the middleware never computes with sample values, and every value in the
claims (`"137"`, `"1"`, …) parses and re-formats identically. -/
structure SamplePair where
  timestamp : Int
  value : String
  deriving DecidableEq, Inhabited, Repr

/-- `model.Sample`: one instant-vector element. -/
structure Sample where
  metric : Metric
  value : SamplePair
  deriving DecidableEq, Inhabited, Repr

/-- `model.SampleStream`: one matrix series. -/
structure SampleStream where
  metric : Metric
  values : List SamplePair
  deriving DecidableEq, Inhabited, Repr

/-- `model.Value`, the tagged union behind the `Result` field.  A Go
`model.Matrix` is `[]*SampleStream`, whose elements can be nil pointers
(`matrixMerge` manufactures some), hence `Option` there; decoded matrices
always hold `some`.  `scalar` stands in for the remaining Go variants that the
merger's dispatch treats as unexpected. -/
inductive Value where
  | vector (v : List Sample)
  | matrix (m : List (Option SampleStream))
  | scalar (s : SamplePair)
  deriving DecidableEq, Inhabited, Repr

/-- A JSON document, as the codec sees it.  Numbers keep their raw decimal
text, which is exactly what `model.Time.UnmarshalJSON` consumes (it splits the
token on `.` and parses integers; no floating point is involved on decode). -/
inductive Json where
  | null
  | str (s : String)
  | num (raw : String)
  | arr (elems : List Json)
  | obj (fields : List (String × Json))

/-- `queryRangeResponse` struct: `resultType` (Go field `Type`, renamed since
`Type` is a Lean keyword), optional opaque `Stats` (kept as its raw JSON; the
middleware never interprets it) and the `Result` union. -/
structure queryRangeResponse where
  resultType : ValueType
  Stats : Option Json
  Result : Value
  deriving Inhabited

/-- The fan-out's `response` record: a sub-request together with the
downstream's reply or error. -/
structure response where
  req : queryRangeRequest
  resp : Option queryRangeResponse
  err : Option String
  deriving Inhabited

/-- Digits of a positive natural in base 10 (most significant first).  The
fuel bounds the digit count; 30 covers every `int64`. -/
def natDigitsAux : Nat → Nat → List Char
  | 0, _ => []
  | fuel + 1, n => if n = 0 then [] else natDigitsAux fuel (n / 10) ++ [Char.ofNat (48 + n % 10)]

/-- Decimal rendering of a natural number. -/
def natToDecimal (n : Nat) : String :=
  if n = 0 then "0" else String.mk (natDigitsAux 30 n)

/-- Digit-list to natural number. -/
def digitsToNat (cs : List Char) : Nat :=
  cs.foldl (fun acc c => acc * 10 + (c.toNat - 48)) 0

/-- `strconv.ParseInt(_, 10, 64)` on a character list, restricted to its
success shape: an optional sign followed by at least one digit.  (The 64-bit
overflow check is not modelled; no quantity in this middleware approaches
`2^63`.) -/
def goParseIntChars (cs : List Char) : Except String Int :=
  match cs with
  | '-' :: t =>
    if !t.isEmpty && t.all Char.isDigit then .ok (-(digitsToNat t : Int))
    else .error ("strconv.ParseInt: parsing " ++ ('-' :: t).asString ++ ": invalid syntax")
  | '+' :: t =>
    if !t.isEmpty && t.all Char.isDigit then .ok (digitsToNat t : Int)
    else .error ("strconv.ParseInt: parsing " ++ ('+' :: t).asString ++ ": invalid syntax")
  | t =>
    if !t.isEmpty && t.all Char.isDigit then .ok (digitsToNat t : Int)
    else .error ("strconv.ParseInt: parsing " ++ t.asString ++ ": invalid syntax")

/-- `strings.Split(s, ".")` on a character list. -/
def splitOnDot : List Char → List (List Char)
  | [] => [[]]
  | c :: rest =>
    if c = '.' then [] :: splitOnDot rest
    else
      match splitOnDot rest with
      | h :: t => (c :: h) :: t
      | [] => [[c]]

/-- `model.Time.UnmarshalJSON`: split the raw number token on `.`, parse the
integer part as seconds, scale the fraction to `dotPrecision = 3` digits of
milliseconds, and re-attach the sign lost with a `-0` integer part. -/
def unmarshalTime (s : String) : Except String Int :=
  match splitOnDot s.data with
  | [p0] =>
    match goParseIntChars p0 with
    | .error e => .error e
    | .ok v => .ok (v * 1000)
  | [p0, p1] =>
    match goParseIntChars p0 with
    | .error e => .error e
    | .ok v0 =>
      let v := v0 * 1000
      let p1' := if p1.length > 3 then p1.take 3
                 else p1 ++ List.replicate (3 - p1.length) '0'
      match goParseIntChars p1' with
      | .error e => .error e
      | .ok va =>
        match p0 with
        | '-' :: _ => if v + va > 0 then .ok (-(v + va)) else .ok (v + va)
        | _ => .ok (v + va)
  | _ => .error ("invalid time " ++ s)

/-- Last-occurrence field lookup in a JSON object, as `encoding/json` keeps
the last duplicate key. -/
def jsonField (fields : List (String × Json)) (key : String) : Option Json :=
  fields.reverse.lookup key

/-- `model.SampleValue.UnmarshalJSON` expects a quoted string.  (Go then
parses it as a float; the string itself is carried as the value, see
`SamplePair`.) -/
def decodeSampleValue : Json → Except String String
  | .str s => .ok s
  | _ => .error "sample value must be a quoted string"

/-- `model.SamplePair.UnmarshalJSON`: a two-element array `[time, value]`. -/
def decodeSamplePair : Json → Except String SamplePair
  | .arr [t, v] =>
    match t with
    | .num raw =>
      match unmarshalTime raw with
      | .error e => .error e
      | .ok ts =>
        match decodeSampleValue v with
        | .error e => .error e
        | .ok sv => .ok ⟨ts, sv⟩
    | _ => .error "sample timestamp must be a number"
  | _ => .error "sample pair must be a two-element array"

/-- Decode a JSON object of string values into a `Metric`. -/
def decodeMetric : Json → Except String Metric
  | .obj fields =>
    fields.mapM (fun kv =>
      match kv.2 with
      | .str s => .ok (kv.1, s)
      | _ => .error "label value must be a string")
  | _ => .error "metric must be an object"

/-- `model.Sample.UnmarshalJSON`: `{metric, value}`. -/
def decodeSample : Json → Except String Sample
  | .obj fields =>
    match jsonField fields "metric", jsonField fields "value" with
    | some mj, some vj =>
      match decodeMetric mj with
      | .error e => .error e
      | .ok m =>
        match decodeSamplePair vj with
        | .error e => .error e
        | .ok p => .ok ⟨m, p⟩
    | _, _ => .error "sample must carry metric and value"
  | _ => .error "sample must be an object"

/-- Decode a `model.Vector`: an array of samples. -/
def decodeVector : Json → Except String (List Sample)
  | .arr xs => xs.mapM decodeSample
  | _ => .error "vector must be an array"

/-- `model.SampleStream.UnmarshalJSON`: `{metric, values}`. -/
def decodeSampleStream : Json → Except String SampleStream
  | .obj fields =>
    match jsonField fields "metric", jsonField fields "values" with
    | some mj, some vj =>
      match decodeMetric mj with
      | .error e => .error e
      | .ok m =>
        match vj with
        | .arr ps =>
          match ps.mapM decodeSamplePair with
          | .error e => .error e
          | .ok vs => .ok ⟨m, vs⟩
        | _ => .error "values must be an array"
    | _, _ => .error "sample stream must carry metric and values"
  | _ => .error "sample stream must be an object"

/-- Decode a `model.Matrix`: an array of series (all pointers non-nil). -/
def decodeMatrix : Json → Except String (List (Option SampleStream))
  | .arr xs =>
    match xs.mapM decodeSampleStream with
    | .error e => .error e
    | .ok ss => .ok (ss.map some)
  | _ => .error "matrix must be an array"

/-- `model.ValueType.UnmarshalJSON`. -/
def decodeValueType : Json → Except String ValueType
  | .str s =>
    if s = "<ValNone>" then .ok .valNone
    else if s = "scalar" then .ok .valScalar
    else if s = "vector" then .ok .valVector
    else if s = "matrix" then .ok .valMatrix
    else if s = "string" then .ok .valString
    else .error ("unknown value type \"" ++ s ++ "\"")
  | _ => .error "value type must be a string"

/-- `queryRangeResponse.UnmarshalJSON`: read `{resultType, stats?, result}`
keeping `result` raw until `resultType` is known, then decode it as a vector
or a matrix; any other type — including the zero value `<ValNone>` left by an
absent `resultType` field — is the error `unexpected value type "<t>"`. -/
def unmarshalQueryRangeResponse (j : Json) : Except String queryRangeResponse :=
  match j with
  | .obj fields =>
    let tv : Except String ValueType :=
      match jsonField fields "resultType" with
      | none => .ok .valNone
      | some tj => decodeValueType tj
    match tv with
    | .error e => .error e
    | .ok vt =>
      let stats := match jsonField fields "stats" with
        | some .null => none
        | s => s
      match vt with
      | .valVector =>
        match jsonField fields "result" with
        | none => .error "unexpected end of JSON input"
        | some rj =>
          match decodeVector rj with
          | .error e => .error e
          | .ok v => .ok ⟨.valVector, stats, .vector v⟩
      | .valMatrix =>
        match jsonField fields "result" with
        | none => .error "unexpected end of JSON input"
        | some rj =>
          match decodeMatrix rj with
          | .error e => .error e
          | .ok m => .ok ⟨.valMatrix, stats, .matrix m⟩
      | t => .error ("unexpected value type \"" ++ valueTypeString t ++ "\"")
  | _ => .error "cannot unmarshal response"

/-- The decode step of `queryRangeTerminator.Do`:
`json.NewDecoder(response.Body).Decode(&resp)` hands the whole HTTP body to
`queryRangeResponse.UnmarshalJSON`. -/
def queryRangeTerminatorDecode (body : Json) : Except String queryRangeResponse :=
  unmarshalQueryRangeResponse body

/-- Ascending insertion into a sorted list of strings. -/
def insertStr (x : String) : List String → List String
  | [] => [x]
  | y :: ys => if x ≤ y then x :: y :: ys else y :: insertStr x ys

/-- `sort.Strings`. -/
def sortStrings (l : List String) : List String :=
  l.foldr insertStr []

/-- `model.Metric.String()`: the metric name (if any) followed by the
remaining labels rendered `name="value"`, sorted, comma-joined in braces. -/
def metricString (m : Metric) : String :=
  let hasName := (m.lookup "__name__").isSome
  let name := (m.lookup "__name__").getD ""
  let labelStrings := (m.filter (fun kv => kv.1 != "__name__")).map
    (fun kv => kv.1 ++ "=\"" ++ kv.2 ++ "\"")
  if labelStrings.isEmpty then
    if hasName then name else "\x7b\x7d"
  else
    name ++ "\x7b" ++ String.intercalate ", " (sortStrings labelStrings) ++ "\x7d"

/-- `model.Time.MarshalJSON`: milliseconds rendered as decimal seconds with
up to three fractional digits and trailing zeros trimmed.  (Go reaches the
same text through `strconv.FormatFloat(float64(t)/1000, 'f', -1, 64)`, whose
shortest round-trip representation coincides with this exact decimal at the
magnitudes an epoch-millisecond value can take.) -/
def msToSecondsDec (t : Int) : String :=
  let n := t.natAbs
  let sgn := if t < 0 then "-" else ""
  let ip := n / 1000
  let fr := n % 1000
  if fr = 0 then sgn ++ natToDecimal ip
  else
    let ds := natDigitsAux 30 fr
    let padded := List.replicate (3 - ds.length) '0' ++ ds
    let trimmed := (padded.reverse.dropWhile (fun c => c == '0')).reverse
    sgn ++ natToDecimal ip ++ "." ++ trimmed.asString

/-- Marshal a `Metric`; `encoding/json` emits map keys sorted. -/
def encodeMetric (m : Metric) : Json :=
  let sortedKeys := sortStrings (m.map (fun kv => kv.1))
  .obj (sortedKeys.filterMap (fun k => (m.lookup k).map (fun v => (k, .str v))))

/-- `model.SamplePair.MarshalJSON`: `[time, "value"]`. -/
def encodeSamplePair (p : SamplePair) : Json :=
  .arr [.num (msToSecondsDec p.timestamp), .str p.value]

/-- `model.Sample.MarshalJSON`. -/
def encodeSample (s : Sample) : Json :=
  .obj [("metric", encodeMetric s.metric), ("value", encodeSamplePair s.value)]

/-- `model.SampleStream.MarshalJSON`. -/
def encodeSampleStream (s : SampleStream) : Json :=
  .obj [("metric", encodeMetric s.metric),
        ("values", .arr (s.values.map encodeSamplePair))]

/-- Marshal a `model.Value`; a nil `*SampleStream` marshals to `null`. -/
def encodeValue : Value → Json
  | .vector v => .arr (v.map encodeSample)
  | .matrix m => .arr (m.map (fun os =>
      match os with
      | none => .null
      | some s => encodeSampleStream s))
  | .scalar p => encodeSamplePair p

/-- Marshal the `data` object `{resultType, stats?, result}` in struct field
order, `stats` omitted when empty. -/
def encodeQueryRangeResponse (q : queryRangeResponse) : Json :=
  .obj ([("resultType", .str (valueTypeString q.resultType))] ++
    (match q.Stats with
     | some sj => [("stats", sj)]
     | none => []) ++
    [("result", encodeValue q.Result)])

/-- `queryRangeResponse.toHTTPResponse`: the body is the `apiResponse`
envelope `{status: "success", data: …}` (the empty `errorType`/`error`
fields are omitted by `omitempty`). -/
def toHTTPResponseBody (q : queryRangeResponse) : Json :=
  .obj [("status", .str "success"), ("data", encodeQueryRangeResponse q)]

/-- Does a string parse under the `strconv.ParseFloat` branch of the request
codec, restricted to the integer sublanguage modelled here?  `parseTime` and
`parseDurationMs` first try `ParseFloat` and fall back to RFC-3339 /
`model.ParseDuration`; this embedding models the optionally-signed integer
forms exactly (on which all arithmetic is exact) and treats every other
string as unparseable.  Fractional, exponent, RFC-3339 and duration-literal
inputs are outside the modelled domain. -/
def goNumericString (s : String) : Bool :=
  match s.data with
  | '-' :: t => !t.isEmpty && t.all Char.isDigit
  | '+' :: t => !t.isEmpty && t.all Char.isDigit
  | t => !t.isEmpty && t.all Char.isDigit

/-- Numeric value of a `goNumericString`. -/
def goStringToInt (s : String) : Int :=
  match s.data with
  | '-' :: t => -(digitsToNat t : Int)
  | '+' :: t => (digitsToNat t : Int)
  | t => (digitsToNat t : Int)

/-- `parseTime`: seconds-since-epoch to integer milliseconds, or the error
`cannot parse "<v>" to a valid timestamp`. -/
def parseTime (s : String) : Except String Int :=
  if goNumericString s then .ok (goStringToInt s * 1000)
  else .error ("cannot parse \"" ++ s ++ "\" to a valid timestamp")

/-- `parseDurationMs`: seconds to integer milliseconds, or the error
`cannot parse "<v>" to a valid duration`. -/
def parseDurationMs (s : String) : Except String Int :=
  if goNumericString s then .ok (goStringToInt s * 1000)
  else .error ("cannot parse \"" ++ s ++ "\" to a valid duration")

/-- The four query-string form values read by `parseQueryRangeRequest`. -/
structure httpFormValues where
  start : String
  endTs : String
  step : String
  query : String
  deriving DecidableEq, Inhabited, Repr

/-- `parseQueryRangeRequest`: parse `start`, then `end`, reject `end < start`,
parse `step`, reject `step ≤ 0`, reject more than 11000 points, and only then
build the request; each failure returns its literal message and aborts. -/
def parseQueryRangeRequest (f : httpFormValues) : Except String queryRangeRequest :=
  match parseTime f.start with
  | .error e => .error e
  | .ok s =>
    match parseTime f.endTs with
    | .error e => .error e
    | .ok e2 =>
      if e2 < s then
        .error "end timestamp must not be before start time"
      else
        match parseDurationMs f.step with
        | .error e => .error e
        | .ok st =>
          if st ≤ 0 then
            .error "zero or negative query resolution step widths are not accepted. Try a positive integer"
          else if Int.tdiv (e2 - s) st > 11000 then
            .error "exceeded maximum resolution of 11,000 points per timeseries. Try decreasing the query resolution (?step=XX)"
          else
            .ok { start := s, endTs := e2, step := st, query := f.query }

/-- `queryRangeRoundTripper.RoundTrip` after the path check: parse the
request; on a parse/validation error return it without invoking the
middleware, otherwise hand the request to the middleware. -/
def queryRangeRoundTrip (mid : queryRangeRequest → Except String queryRangeResponse)
    (f : httpFormValues) : Except String queryRangeResponse :=
  match parseQueryRangeRequest f with
  | .error e => .error e
  | .ok req => mid req

/-- Outcome of `splitByDay.Do` or of a merge: a response, a returned error,
or a Go runtime panic (failed type assertion, nil dereference, index out of
range) — a panic is *not* a returned error. -/
inductive doResult where
  | ok (resp : queryRangeResponse)
  | failed (err : String)
  | crash (msg : String)
  deriving Inhabited

/-- Ascending-by-`req.start` insertion (the comparison `byFirstTime.Less`). -/
def insertResp (x : response) : List response → List response
  | [] => [x]
  | y :: ys => if x.req.start < y.req.start then x :: y :: ys else y :: insertResp x ys

/-- `sort.Sort(byFirstTime(responses))`. -/
def sortByStart (l : List response) : List response :=
  l.foldr insertResp []

/-- The gather loop of `splitByDay.Do`, processing completions in arrival
order.  Mirrors the code exactly: on an errored completion the branch
`if firstErr != nil { firstErr = resp.err; cancel() }` only overwrites an
already-set `firstErr`, so an initially-nil `firstErr` can never become
non-nil; errored completions are dropped, successful ones are appended. -/
def gatherLoop (arrivals : List response) : List response × Option String :=
  arrivals.foldl
    (fun acc r =>
      match r.err with
      | some e => (acc.1, if acc.2.isSome then some e else acc.2)
      | none => (acc.1 ++ [r], acc.2))
    ([], none)

/-- The `vectorMerge` loop: concatenate, type-asserting each result to
`model.Vector` (a non-vector result is a runtime panic). -/
def vectorAccum (acc : List Sample) : List response → Except String (List Sample)
  | [] => .ok acc
  | r :: rest =>
    match r.resp with
    | none => .error "invalid memory address or nil pointer dereference"
    | some q =>
      match q.Result with
      | .vector v => vectorAccum (acc ++ v) rest
      | _ => .error "interface conversion"

/-- `vectorMerge`: the merged response carries `ValVector`, the concatenated
samples, and no stats. -/
def vectorMerge (resps : List response) : doResult :=
  match vectorAccum [] resps with
  | .error e => .crash e
  | .ok out => .ok ⟨.valVector, none, .vector out⟩

/-- Insert one series into the `map[string]*SampleStream` accumulator: a new
key stores the stream, an existing key appends the stream's values. -/
def mmInsert (key : String) (s : SampleStream) :
    List (String × SampleStream) → List (String × SampleStream)
  | [] => [(key, s)]
  | (k, es) :: rest =>
    if k = key then (k, { es with values := es.values ++ s.values }) :: rest
    else (k, es) :: mmInsert key s rest

/-- The `matrixMerge` accumulation loop, type-asserting each result to
`model.Matrix` and grouping series by `Metric.String()`.  (Go iterates its
map in unspecified order; the association list keeps insertion order, which
is immaterial to the claims checked here.) -/
def matrixAccum (out : List (String × SampleStream)) :
    List response → Except String (List (String × SampleStream))
  | [] => .ok out
  | r :: rest =>
    match r.resp with
    | none => .error "invalid memory address or nil pointer dereference"
    | some q =>
      match q.Result with
      | .matrix m =>
        match m.foldlM
          (fun o os =>
            match os with
            | none => Except.error "invalid memory address or nil pointer dereference"
            | some s => Except.ok (mmInsert (metricString s.metric) s o))
          out with
        | .error e => .error e
        | .ok out' => matrixAccum out' rest
      | _ => .error "interface conversion"

/-- `matrixMerge`: `result := make(model.Matrix, len(output))` pre-allocates
`len(output)` nil series, and the subsequent `append` adds the grouped series
after them; the merged response carries `ValMatrix`, that list, and no
stats. -/
def matrixMerge (resps : List response) : doResult :=
  match matrixAccum [] resps with
  | .error e => .crash e
  | .ok out =>
    .ok ⟨.valMatrix, none,
      .matrix (List.replicate out.length none ++ out.map (fun kv => some kv.2))⟩

/-- The merge phase of `splitByDay.Do`: sort by sub-request start, dispatch on
the first response's result type (vector/matrix), and return the error
`unexpected response type` for any other first type.  `responses[0]` on an
empty list is a runtime panic. -/
def mergeResponses (resps : List response) : doResult :=
  match sortByStart resps with
  | [] => .crash "index out of range"
  | r0 :: rest =>
    match r0.resp with
    | none => .crash "invalid memory address or nil pointer dereference"
    | some q =>
      match q.Result with
      | .vector _ => vectorMerge (r0 :: rest)
      | .matrix _ => matrixMerge (r0 :: rest)
      | _ => .failed "unexpected response type"

/-- `splitByDay.Do` with the concurrency collapsed to a deterministic
schedule: split, run the downstream on every sub-request, gather the
completions (here in dispatch order — `gatherLoop` never sets `firstErr` and
the successes are sorted before merging, so the outcome does not depend on
the arrival order), then merge. -/
def splitByDayDo (downstream : queryRangeRequest → Except String queryRangeResponse)
    (r : queryRangeRequest) : doResult :=
  let reqs := splitQuery r
  let arrivals := reqs.map (fun req =>
    match downstream req with
    | .ok resp => { req := req, resp := some resp, err := none }
    | .error e => { req := req, resp := none, err := some e })
  let gathered := gatherLoop arrivals
  match gathered.2 with
  | some e => .failed e
  | none => mergeResponses gathered.1

/-- Unfolding equation for `nextDayBoundary`. -/
theorem nextDayBoundary_eq (t step : Int) :
    nextDayBoundary t step =
      (Int.tdiv t millisecondPerDay + 1) * millisecondPerDay -
        (step - Int.tmod (Int.tmod t millisecondPerDay) step) := rfl

/-- Once `start` has reached `r.end` the loop body never runs, whatever fuel
is left. -/
theorem splitQueryGo_stop (r : queryRangeRequest) (fuel : Nat) (s : Int)
    (h : r.endTs ≤ s) : splitQueryGo r fuel s = [] := by
  cases fuel with
  | zero => rfl
  | succ n => simp [splitQueryGo, not_lt.2 h]

/-- Loop progress: for a nonnegative current start and positive step, the next
start `nextDayBoundary t step + step` is strictly beyond `t`. -/
theorem nextDayBoundary_add_step_gt (t step : Int) (h0 : 0 ≤ t)
    (h1 : 0 < step) : t < nextDayBoundary t step + step := by
  have h5 := Int.tdiv_add_tmod t millisecondPerDay
  have h2 : 0 ≤ Int.tmod t millisecondPerDay := Int.tmod_nonneg _ h0
  have h3 : Int.tmod t millisecondPerDay < millisecondPerDay :=
    Int.tmod_lt_of_pos _ (by norm_num [millisecondPerDay])
  have h4 : 0 ≤ Int.tmod (Int.tmod t millisecondPerDay) step := Int.tmod_nonneg _ h2
  rw [nextDayBoundary_eq]
  unfold millisecondPerDay at *
  generalize hq : Int.tdiv t 86400000 = q at *
  generalize hu : Int.tmod t 86400000 = u at *
  generalize hm : Int.tmod u step = m at *
  omega

/-- The next start lands in a strictly later UTC day than the current one. -/
theorem nextDayBoundary_day_advances (t step : Int) (h0 : 0 ≤ t)
    (h1 : 0 < step) :
    Int.tdiv t millisecondPerDay + 1 ≤
      Int.tdiv (nextDayBoundary t step + step) millisecondPerDay := by
  have h2 : 0 ≤ Int.tmod t millisecondPerDay := Int.tmod_nonneg _ h0
  have h4 : 0 ≤ Int.tmod (Int.tmod t millisecondPerDay) step := Int.tmod_nonneg _ h2
  have hq : 0 ≤ Int.tdiv t millisecondPerDay :=
    Int.tdiv_nonneg h0 (by norm_num [millisecondPerDay])
  have hnb : nextDayBoundary t step + step =
      (Int.tdiv t millisecondPerDay + 1) * millisecondPerDay +
        Int.tmod (Int.tmod t millisecondPerDay) step := by
    rw [nextDayBoundary_eq]; ring
  rw [hnb]
  generalize hQ : Int.tdiv t millisecondPerDay = q at *
  generalize hm : Int.tmod (Int.tmod t millisecondPerDay) step = m at *
  unfold millisecondPerDay at *
  have hnum : 0 ≤ (q + 1) * 86400000 + m := by omega
  rw [Int.tdiv_eq_ediv hnum (by norm_num)]
  omega

/-- Truncated remainder is zero exactly on multiples. -/
theorem tmod_eq_zero_iff_dvd (a b : Int) : Int.tmod a b = 0 ↔ b ∣ a := by
  constructor
  · intro h
    have hh := Int.tdiv_add_tmod a b
    exact ⟨Int.tdiv a b, by linarith⟩
  · rintro ⟨c, rfl⟩
    rw [mul_comm]
    exact Int.mul_tmod_left c b

/-- The distance from the current start to the next one is a whole number of
steps whenever `step` divides the day length. -/
theorem step_dvd_next_sub (s step : Int) (hdvd : step ∣ millisecondPerDay) :
    step ∣ (nextDayBoundary s step + step - s) := by
  have hs := Int.tdiv_add_tmod s millisecondPerDay
  have hu := Int.tdiv_add_tmod (Int.tmod s millisecondPerDay) step
  have hexp : nextDayBoundary s step + step - s =
      millisecondPerDay - step * Int.tdiv (Int.tmod s millisecondPerDay) step := by
    rw [nextDayBoundary_eq]; linarith
  rw [hexp]
  exact dvd_sub hdvd (Dvd.intro _ rfl)

/-- Main loop invariant for `splitQueryGo`: with more fuel than UTC days left,
a nonnegative start strictly below `r.end` and a positive step, the produced
list is nonempty, begins at `start`, finishes at `r.end`, copies `step` and
`query` into every element, chains each successive start as the previous end
plus `step`, and—when `step` divides the day length—keeps every start on the
step grid anchored at the initial `start`. -/
theorem splitQueryGo_spec (r : queryRangeRequest) (hstep : 0 < r.step) :
    ∀ (fuel : Nat) (s : Int), 0 ≤ s → s < r.endTs →
      Int.tdiv r.endTs millisecondPerDay <
        Int.tdiv s millisecondPerDay + (fuel : Int) →
      splitQueryGo r fuel s ≠ [] ∧
      (∀ h : 0 < (splitQueryGo r fuel s).length,
        ((splitQueryGo r fuel s).get ⟨0, h⟩).start = s) ∧
      ((splitQueryGo r fuel s).getLastD default).endTs = r.endTs ∧
      (∀ q ∈ splitQueryGo r fuel s, q.step = r.step ∧ q.query = r.query) ∧
      (splitQueryGo r fuel s).Chain' (fun a b => b.start = a.endTs + r.step) ∧
      (Int.tmod millisecondPerDay r.step = 0 →
        ∀ q ∈ splitQueryGo r fuel s, Int.tmod (q.start - s) r.step = 0) := by
  intro fuel
  induction fuel with
  | zero =>
    intro s h0 h1 hf
    exfalso
    have hmono : Int.tdiv s millisecondPerDay ≤ Int.tdiv r.endTs millisecondPerDay := by
      rw [Int.tdiv_eq_ediv h0 (by norm_num [millisecondPerDay]),
        Int.tdiv_eq_ediv (le_of_lt (lt_of_le_of_lt h0 h1))
          (by norm_num [millisecondPerDay])]
      exact Int.ediv_le_ediv (by norm_num [millisecondPerDay]) (le_of_lt h1)
    simp only [Nat.cast_zero, add_zero] at hf
    omega
  | succ n ih =>
    intro s h0 h1 hf
    by_cases hlast : nextDayBoundary s r.step + r.step ≥ r.endTs
    · have hstop : splitQueryGo r n (nextDayBoundary s r.step + r.step) = [] :=
        splitQueryGo_stop r n _ hlast
      have hL : splitQueryGo r (n + 1) s = [⟨s, r.endTs, r.step, r.query⟩] := by
        simp only [splitQueryGo, if_pos h1, if_pos hlast, hstop]
      rw [hL]
      refine ⟨by simp, fun h => rfl, by simp, ?_, List.chain'_singleton _, ?_⟩
      · intro q hq
        rw [List.mem_singleton] at hq
        subst hq
        exact ⟨rfl, rfl⟩
      · intro hdvd q hq
        rw [List.mem_singleton] at hq
        subst hq
        simp [Int.zero_tmod]
    · have hlt : nextDayBoundary s r.step + r.step < r.endTs := lt_of_not_ge hlast
      have hpr : s < nextDayBoundary s r.step + r.step :=
        nextDayBoundary_add_step_gt s r.step h0 hstep
      have h0' : 0 ≤ nextDayBoundary s r.step + r.step :=
        le_of_lt (lt_of_le_of_lt h0 hpr)
      have hday := nextDayBoundary_day_advances s r.step h0 hstep
      have hf' : Int.tdiv r.endTs millisecondPerDay <
          Int.tdiv (nextDayBoundary s r.step + r.step) millisecondPerDay + (n : Int) := by
        push_cast at hf ⊢
        omega
      obtain ⟨ihne, ihget0, ihlast, ihsq, ihchain, ihalign⟩ :=
        ih (nextDayBoundary s r.step + r.step) h0' hlt hf'
      have hL : splitQueryGo r (n + 1) s =
          ⟨s, nextDayBoundary s r.step, r.step, r.query⟩ ::
            splitQueryGo r n (nextDayBoundary s r.step + r.step) := by
        simp only [splitQueryGo, if_pos h1, if_neg hlast]
      obtain ⟨y, ys, hys⟩ : ∃ y ys,
          splitQueryGo r n (nextDayBoundary s r.step + r.step) = y :: ys := by
        cases hE : splitQueryGo r n (nextDayBoundary s r.step + r.step) with
        | nil => exact absurd hE ihne
        | cons a as => exact ⟨a, as, rfl⟩
      have hy : y.start = nextDayBoundary s r.step + r.step := by
        have hlen : 0 < (splitQueryGo r n (nextDayBoundary s r.step + r.step)).length := by
          rw [hys]; simp
        have := ihget0 hlen
        rw [List.get_of_eq hys ⟨0, by simpa [hys] using hlen⟩] at this
        simpa using this
      rw [hL, hys]
      refine ⟨by simp, fun h => rfl, ?_, ?_, ?_, ?_⟩
      · rw [List.getLastD_cons, List.getLastD_cons]
        have := ihlast
        rw [hys, List.getLastD_cons] at this
        exact this
      · intro q hq
        rcases List.mem_cons.1 hq with hq | hq
        · subst hq; exact ⟨rfl, rfl⟩
        · exact ihsq q (by rw [hys]; exact hq)
      · rw [List.chain'_cons]
        refine ⟨by rw [hy], ?_⟩
        rw [← hys]
        exact ihchain
      · intro hdvd q hq
        rcases List.mem_cons.1 hq with hq | hq
        · subst hq; simp [Int.zero_tmod]
        · have htail := ihalign hdvd q (by rw [hys]; exact hq)
          have hgrid : r.step ∣ (nextDayBoundary s r.step + r.step - s) :=
            step_dvd_next_sub s r.step ((tmod_eq_zero_iff_dvd _ _).1 hdvd)
          have hqd : r.step ∣ (q.start - (nextDayBoundary s r.step + r.step)) :=
            (tmod_eq_zero_iff_dvd _ _).1 htail
          have : r.step ∣ (q.start - s) := by
            have := dvd_add hqd hgrid
            simpa using this
          exact (tmod_eq_zero_iff_dvd _ _).2 this

/-- With any spare fuel, a first iteration that already reaches `r.end`
emits the input request alone. -/
theorem splitQueryGo_single (r : queryRangeRequest) (fuel : Nat)
    (h1 : r.start < r.endTs)
    (hkey : r.endTs ≤ nextDayBoundary r.start r.step + r.step) :
    splitQueryGo r (fuel + 1) r.start = [r] := by
  have hstop := splitQueryGo_stop r fuel _ hkey
  simp only [splitQueryGo, if_pos h1, ge_iff_le, if_pos hkey, hstop]

/-- C2 (amended): `split` is the identity on single-day ranges in the sense
the code implements: when `step > 0`, `start < end` and the range does not
extend past the UTC day boundary following `start`
(`end ≤ (start / D + 1)·D`), `split(r) = [r]`.  A zero-width range yields
`[]`, and a range of width `≤ D` that crosses a day boundary is split in two
(see the counterexample). -/
theorem splitQuery_single_day_amended (r : queryRangeRequest) (h0 : 0 ≤ r.start)
    (h1 : r.start < r.endTs) (hstep : 0 < r.step)
    (hday : r.endTs ≤ (Int.tdiv r.start millisecondPerDay + 1) * millisecondPerDay) :
    splitQuery r = [r] := by
  have h4 : 0 ≤ Int.tmod (Int.tmod r.start millisecondPerDay) r.step :=
    Int.tmod_nonneg _ (Int.tmod_nonneg _ h0)
  have hkey : r.endTs ≤ nextDayBoundary r.start r.step + r.step := by
    rw [nextDayBoundary_eq]
    linarith
  exact splitQueryGo_single r (((r.endTs - r.start).tdiv millisecondPerDay).toNat + 1) h1 hkey

/-- C2 (counterexample): the half-day-to-half-day range
`[43 200 000, 129 600 000]` has width exactly one day, yet `split` cuts it at
the day boundary into two sub-requests instead of returning it unchanged. -/
theorem splitQuery_single_day_counterexample :
    (129600000 : Int) - 43200000 ≤ millisecondPerDay ∧
    splitQuery ⟨43200000, 129600000, 15000, "foo"⟩ ≠
      [⟨43200000, 129600000, 15000, "foo"⟩] ∧
    splitQuery ⟨43200000, 129600000, 15000, "foo"⟩ =
      [⟨43200000, 86385000, 15000, "foo"⟩, ⟨86400000, 129600000, 15000, "foo"⟩] :=
  ⟨by decide, by decide, by decide⟩

/-- C2 (witness): the one-day range starting at the epoch is returned
unchanged. -/
theorem splitQuery_single_day_amended_witness :
    splitQuery ⟨0, 86400000, 15000, "foo"⟩ = [⟨0, 86400000, 15000, "foo"⟩] :=
  splitQuery_single_day_amended ⟨0, 86400000, 15000, "foo"⟩ (by decide) (by decide)
    (by decide) (by decide)

/-- C5 (amended): for every request with `0 ≤ start < end` and `step > 0`,
the split `S` is nonempty, `S[0].start = r.start`, `S[last].end = r.end`,
every sub-request carries `r`'s `step` and `query`, and
`S[i+1].start = S[i].end + r.step` for every `i`.  The step-grid clause
`(S[i+1].start − r.start) mod r.step = 0` additionally requires `r.step` to
divide the day length `D` (the boundary formula only re-aligns to the grid
modulo a day; see the counterexample for a step that does not divide `D`). -/
theorem splitQuery_coverage (r : queryRangeRequest) (h0 : 0 ≤ r.start)
    (h1 : r.start < r.endTs) (hstep : 0 < r.step) :
    splitQuery r ≠ [] ∧
    (∀ h : 0 < (splitQuery r).length, ((splitQuery r).get ⟨0, h⟩).start = r.start) ∧
    ((splitQuery r).getLastD default).endTs = r.endTs ∧
    (∀ q ∈ splitQuery r, q.step = r.step ∧ q.query = r.query) ∧
    (∀ i (h : i + 1 < (splitQuery r).length),
      ((splitQuery r).get ⟨i + 1, h⟩).start =
        ((splitQuery r).get ⟨i, Nat.lt_of_succ_lt h⟩).endTs + r.step) ∧
    (Int.tmod millisecondPerDay r.step = 0 →
      ∀ q ∈ splitQuery r, Int.tmod (q.start - r.start) r.step = 0) := by
  have hE0 : 0 ≤ r.endTs := le_of_lt (lt_of_le_of_lt h0 h1)
  have hd0 : 0 ≤ r.endTs - r.start := by omega
  have hfuel : Int.tdiv r.endTs millisecondPerDay <
      Int.tdiv r.start millisecondPerDay +
        (((((r.endTs - r.start).tdiv millisecondPerDay).toNat + 2 : Nat) : Int)) := by
    have hXe : (r.endTs - r.start).tdiv millisecondPerDay =
        (r.endTs - r.start) / millisecondPerDay :=
      Int.tdiv_eq_ediv hd0 (by norm_num [millisecondPerDay])
    have hXnn : 0 ≤ (r.endTs - r.start) / millisecondPerDay :=
      Int.ediv_nonneg hd0 (by norm_num [millisecondPerDay])
    rw [Int.tdiv_eq_ediv hE0 (by norm_num [millisecondPerDay]),
      Int.tdiv_eq_ediv h0 (by norm_num [millisecondPerDay]), hXe]
    push_cast [Int.toNat_of_nonneg hXnn]
    unfold millisecondPerDay
    omega
  obtain ⟨hne, hget0, hlast, hsq, hchain, halign⟩ :=
    splitQueryGo_spec r hstep (((r.endTs - r.start).tdiv millisecondPerDay).toNat + 2)
      r.start h0 h1 hfuel
  refine ⟨hne, hget0, hlast, hsq, ?_, halign⟩
  intro i h
  have h' : i + 1 <
      (splitQueryGo r (((r.endTs - r.start).tdiv millisecondPerDay).toNat + 2) r.start).length := h
  exact List.chain'_iff_get.1 hchain i (by omega)

/-- C5 (witness): the two-day split of `[0, 2·D]` at step 15 s is nonempty and
ends at `2·D`. -/
theorem splitQuery_coverage_witness :
    splitQuery ⟨0, 172800000, 15000, "foo"⟩ ≠ [] ∧
    ((splitQuery ⟨0, 172800000, 15000, "foo"⟩).getLastD default).endTs = 172800000 := by
  have h := splitQuery_coverage ⟨0, 172800000, 15000, "foo"⟩ (by decide) (by decide) (by decide)
  exact ⟨h.1, h.2.2.1⟩

/-- C5 (counterexample): with `step = 70 000` (which does not divide the day
length) the second sub-request starts at the day boundary `86 400 000`, and
`(S[1].start − r.start) mod r.step = 20 000 ≠ 0` — the step-grid clause of
the claim fails, although the chaining clauses hold. -/
theorem splitQuery_alignment_counterexample :
    splitQuery ⟨0, 172800000, 70000, "q"⟩ =
      [⟨0, 86330000, 70000, "q"⟩, ⟨86400000, 172800000, 70000, "q"⟩] ∧
    Int.tmod (((splitQuery ⟨0, 172800000, 70000, "q"⟩).getD 1 default).start - 0) 70000 ≠ 0 :=
  ⟨by decide, by decide⟩

/-- C10: the splitter terminates — for `step > 0` (and a nonnegative start,
as every epoch timestamp is) each iteration's next start
`nextDayBoundary(start, step) + step` strictly exceeds the current start, and
the split list is finite with at most days-in-range + 2 elements. -/
theorem splitQuery_terminates :
    (∀ t step : Int, 0 ≤ t → 0 < step → t < nextDayBoundary t step + step) ∧
    (∀ r : queryRangeRequest,
      (splitQuery r).length ≤ ((r.endTs - r.start).tdiv millisecondPerDay).toNat + 2) := by
  refine ⟨nextDayBoundary_add_step_gt, ?_⟩
  intro r
  have hlen : ∀ (fuel : Nat) (s : Int), (splitQueryGo r fuel s).length ≤ fuel := by
    intro fuel
    induction fuel with
    | zero => intro s; simp [splitQueryGo]
    | succ n ihn =>
      intro s
      by_cases h : s < r.endTs
      · simp only [splitQueryGo, if_pos h, List.length_cons]
        exact Nat.succ_le_succ (ihn _)
      · simp [splitQueryGo, h]
  exact hlen _ _

/-- C10 (witness): progress at the epoch with a 15-second step. -/
theorem splitQuery_terminates_witness : (0 : Int) < nextDayBoundary 0 15000 + 15000 :=
  splitQuery_terminates.1 0 15000 (by decide) (by decide)

/-- C1 (code bug): the executor cannot return a downstream error.  The guard
`if firstErr != nil` in the gather loop only overwrites an already-set
`firstErr`, so it stays `nil` forever: errored sub-requests are silently
dropped and the remaining successes are merged.  Concretely, on the two-day
request `[0, 2·D]` whose first sub-request fails, `Do` returns a merged
response built from the surviving day instead of the error; when every
sub-request fails it panics on `responses[0]` instead of returning the
error. -/
theorem splitByDayDo_swallows_errors :
    (∀ arrivals : List response, (gatherLoop arrivals).2 = none) ∧
    splitByDayDo
      (fun req => if req.start == 0 then .error "downstream failure"
                  else .ok ⟨.valVector, none, .vector [⟨[("__name__", "up")], ⟨86400000000, "1"⟩⟩]⟩)
      ⟨0, 172800000, 15000, "foo"⟩ =
      .ok ⟨.valVector, none, .vector [⟨[("__name__", "up")], ⟨86400000000, "1"⟩⟩]⟩ ∧
    splitByDayDo (fun _ => .error "downstream failure") ⟨0, 172800000, 15000, "foo"⟩ =
      .crash "index out of range" := by
  refine ⟨?_, rfl, rfl⟩
  intro arrivals
  have gen : ∀ (l : List response) (acc : List response),
      (l.foldl
        (fun acc r =>
          match r.err with
          | some e => (acc.1, if acc.2.isSome then some e else acc.2)
          | none => (acc.1 ++ [r], acc.2))
        (acc, (none : Option String))).2 = none := by
    intro l
    induction l with
    | nil => intro acc; rfl
    | cons x xs ihx =>
      intro acc
      cases hx : x.err with
      | none => simpa [hx] using ihx (acc ++ [x])
      | some e => simpa [hx] using ihx acc
  exact gen arrivals []

/-- C3 (code bug): merging a one-element response list does not return the
sole response unchanged.  For a singleton matrix,
`make(model.Matrix, len(output))` followed by `append` prepends a nil series,
so the result is `[nil, series]` rather than `[series]`; and both merges drop
`stats` (shown for a singleton vector carrying stats). -/
theorem merge_singleton_not_identity :
    matrixMerge [⟨⟨0, 86400000, 15000, "up"⟩,
        some ⟨.valMatrix, none, .matrix [some ⟨[("__name__", "up")], [⟨0, "1"⟩]⟩]⟩, none⟩] =
      .ok ⟨.valMatrix, none, .matrix [none, some ⟨[("__name__", "up")], [⟨0, "1"⟩]⟩]⟩ ∧
    Value.matrix [none, some ⟨[("__name__", "up")], [⟨0, "1"⟩]⟩] ≠
      Value.matrix [some ⟨[("__name__", "up")], [⟨0, "1"⟩]⟩] ∧
    vectorMerge [⟨⟨0, 86400000, 15000, "up"⟩,
        some ⟨.valVector, some (.obj []), .vector [⟨[("__name__", "up")], ⟨0, "1"⟩⟩]⟩, none⟩] =
      .ok ⟨.valVector, none, .vector [⟨[("__name__", "up")], ⟨0, "1"⟩⟩]⟩ :=
  ⟨rfl, by decide, rfl⟩

/-- C4 (code bug): `queryRangeTerminator.Do` decodes the HTTP body directly as
a `queryRangeResponse`, but the body of the spec's scenario is the
`apiResponse` envelope; the absent top-level `resultType` leaves the zero
value `<ValNone>` and decoding fails with `unexpected value type "<ValNone>"`
instead of succeeding.  Decoding the envelope's `data` object alone yields
exactly the matrix the claim describes. -/
theorem queryRangeTerminator_decode_envelope :
    queryRangeTerminatorDecode (.obj [("status", .str "success"),
      ("data", .obj [("resultType", .str "matrix"),
        ("result", .arr [.obj [("metric", .obj []),
          ("values", .arr [.arr [.num "1536763606.651", .str "137"],
                           .arr [.num "1536763607.651", .str "137"]])]])])]) =
      .error "unexpected value type \"<ValNone>\"" ∧
    unmarshalQueryRangeResponse (.obj [("resultType", .str "matrix"),
        ("result", .arr [.obj [("metric", .obj []),
          ("values", .arr [.arr [.num "1536763606.651", .str "137"],
                           .arr [.num "1536763607.651", .str "137"]])]])]) =
      .ok ⟨.valMatrix, none,
        .matrix [some ⟨[], [⟨1536763606651, "137"⟩, ⟨1536763607651, "137"⟩]⟩]⟩ :=
  ⟨rfl, rfl⟩

/-- C7 (code bug): `toHTTPResponse` wraps the response in the
`{status, data}` envelope, while the terminator's decode expects the bare
`{resultType, …}` object, so `decode(encode(x))` fails with
`unexpected value type "<ValNone>"` for every `x` — shown for a matrix and
for an empty vector — although the `data`-level codec round-trips the matrix
exactly. -/
theorem response_roundtrip_envelope_mismatch :
    queryRangeTerminatorDecode (toHTTPResponseBody
        ⟨.valMatrix, none, .matrix [some ⟨[], [⟨1536763606651, "137"⟩]⟩]⟩) =
      .error "unexpected value type \"<ValNone>\"" ∧
    queryRangeTerminatorDecode (toHTTPResponseBody ⟨.valVector, none, .vector []⟩) =
      .error "unexpected value type \"<ValNone>\"" ∧
    unmarshalQueryRangeResponse (encodeQueryRangeResponse
        ⟨.valMatrix, none, .matrix [some ⟨[], [⟨1536763606651, "137"⟩]⟩]⟩) =
      .ok ⟨.valMatrix, none, .matrix [some ⟨[], [⟨1536763606651, "137"⟩]⟩]⟩ :=
  ⟨rfl, rfl, rfl⟩

/-- C8 (counterexample): two responses of different result types (vector for
day one, matrix for day two) make `vectorMerge`'s type assertion fail — a
runtime panic, not a returned internal error. -/
theorem mergeResponses_mismatch_counterexample :
    mergeResponses
      [⟨⟨0, 86385000, 15000, "q"⟩, some ⟨.valVector, none,
          .vector [⟨[("__name__", "up")], ⟨0, "1"⟩⟩]⟩, none⟩,
       ⟨⟨86400000, 172800000, 15000, "q"⟩, some ⟨.valMatrix, none,
          .matrix [some ⟨[("__name__", "up")], [⟨86400000, "1"⟩]⟩]⟩, none⟩] =
      .crash "interface conversion" := rfl

/-- C8 (amended): the merger orders responses by sub-request `start`
ascending and dispatches on the first response's result type; a first
response whose type is neither vector nor matrix yields the internal error
`unexpected response type`, but responses of *differing* types (the first
being vector) crash with a failed type assertion instead of returning an
error. -/
theorem mergeResponses_dispatch :
    (∀ (r1 r2 : response) (q1 q2 : queryRangeResponse) (v1 v2 : List Sample),
      r1.resp = some q1 → r2.resp = some q2 →
      q1.Result = .vector v1 → q2.Result = .vector v2 →
      r1.req.start < r2.req.start →
      mergeResponses [r2, r1] = .ok ⟨.valVector, none, .vector (v1 ++ v2)⟩) ∧
    (∀ (r : response) (q : queryRangeResponse) (p : SamplePair),
      r.resp = some q → q.Result = .scalar p →
      mergeResponses [r] = .failed "unexpected response type") ∧
    (∀ (r1 r2 : response) (q1 q2 : queryRangeResponse) (v1 : List Sample)
        (m2 : List (Option SampleStream)),
      r1.resp = some q1 → r2.resp = some q2 →
      q1.Result = .vector v1 → q2.Result = .matrix m2 →
      r1.req.start < r2.req.start →
      mergeResponses [r1, r2] = .crash "interface conversion") := by
  refine ⟨?_, ?_, ?_⟩
  · intro r1 r2 q1 q2 v1 v2 h1 h2 hq1 hq2 hlt
    have hsort : sortByStart [r2, r1] = [r1, r2] := by
      simp only [sortByStart, List.foldr, insertResp, if_neg (not_lt.2 (le_of_lt hlt))]
    simp only [mergeResponses, hsort, h1, hq1, vectorMerge, vectorAccum, h2, hq2,
      List.nil_append]
  · intro r q p h1 hq
    have hsort : sortByStart [r] = [r] := by
      simp only [sortByStart, List.foldr, insertResp]
    simp only [mergeResponses, hsort, h1, hq]
  · intro r1 r2 q1 q2 v1 m2 h1 h2 hq1 hq2 hlt
    have hsort : sortByStart [r1, r2] = [r1, r2] := by
      simp only [sortByStart, List.foldr, insertResp, if_pos hlt]
    simp only [mergeResponses, hsort, h1, hq1, vectorMerge, vectorAccum, h2, hq2,
      List.nil_append]

/-- C8 (witness): the three dispatch behaviors at concrete responses — two
vectors arriving out of order merge in start order; a scalar first response
returns the internal error; a vector/matrix mix crashes. -/
theorem mergeResponses_dispatch_witness :
    mergeResponses
      [⟨⟨86400000, 172800000, 15000, "q"⟩, some ⟨.valVector, none,
          .vector [⟨[("__name__", "down")], ⟨86400000, "2"⟩⟩]⟩, none⟩,
       ⟨⟨0, 86385000, 15000, "q"⟩, some ⟨.valVector, none,
          .vector [⟨[("__name__", "up")], ⟨0, "1"⟩⟩]⟩, none⟩] =
      .ok ⟨.valVector, none, .vector [⟨[("__name__", "up")], ⟨0, "1"⟩⟩,
        ⟨[("__name__", "down")], ⟨86400000, "2"⟩⟩]⟩ ∧
    mergeResponses [⟨⟨0, 86385000, 15000, "q"⟩, some ⟨.valScalar, none,
        .scalar ⟨0, "1"⟩⟩, none⟩] = .failed "unexpected response type" ∧
    mergeResponses
      [⟨⟨0, 86385000, 15000, "q"⟩, some ⟨.valVector, none,
          .vector [⟨[("__name__", "up")], ⟨0, "1"⟩⟩]⟩, none⟩,
       ⟨⟨86400000, 172800000, 15000, "q"⟩, some ⟨.valMatrix, none,
          .matrix [some ⟨[("__name__", "up")], [⟨86400000, "1"⟩]⟩]⟩, none⟩] =
      .crash "interface conversion" := by
  refine ⟨?_, ?_, ?_⟩
  · exact mergeResponses_dispatch.1
      ⟨⟨0, 86385000, 15000, "q"⟩, some ⟨.valVector, none,
        .vector [⟨[("__name__", "up")], ⟨0, "1"⟩⟩]⟩, none⟩
      ⟨⟨86400000, 172800000, 15000, "q"⟩, some ⟨.valVector, none,
        .vector [⟨[("__name__", "down")], ⟨86400000, "2"⟩⟩]⟩, none⟩
      ⟨.valVector, none, .vector [⟨[("__name__", "up")], ⟨0, "1"⟩⟩]⟩
      ⟨.valVector, none, .vector [⟨[("__name__", "down")], ⟨86400000, "2"⟩⟩]⟩
      [⟨[("__name__", "up")], ⟨0, "1"⟩⟩]
      [⟨[("__name__", "down")], ⟨86400000, "2"⟩⟩]
      rfl rfl rfl rfl (by decide)
  · exact mergeResponses_dispatch.2.1
      ⟨⟨0, 86385000, 15000, "q"⟩, some ⟨.valScalar, none, .scalar ⟨0, "1"⟩⟩, none⟩
      ⟨.valScalar, none, .scalar ⟨0, "1"⟩⟩ ⟨0, "1"⟩ rfl rfl
  · exact mergeResponses_dispatch.2.2
      ⟨⟨0, 86385000, 15000, "q"⟩, some ⟨.valVector, none,
        .vector [⟨[("__name__", "up")], ⟨0, "1"⟩⟩]⟩, none⟩
      ⟨⟨86400000, 172800000, 15000, "q"⟩, some ⟨.valMatrix, none,
        .matrix [some ⟨[("__name__", "up")], [⟨86400000, "1"⟩]⟩]⟩, none⟩
      ⟨.valVector, none, .vector [⟨[("__name__", "up")], ⟨0, "1"⟩⟩]⟩
      ⟨.valMatrix, none, .matrix [some ⟨[("__name__", "up")], [⟨86400000, "1"⟩]⟩]⟩
      [⟨[("__name__", "up")], ⟨0, "1"⟩⟩]
      [some ⟨[("__name__", "up")], [⟨86400000, "1"⟩]⟩]
      rfl rfl rfl rfl (by decide)

/-- C9: validation runs in the specified order — `start` parses, `end`
parses, `end ≥ start`, `step` parses, `step > 0`, at most 11000 points — each
failure aborts with its literal message (timestamp and duration parse errors
quote the offending value), the first failure wins regardless of later
fields, and a parse or semantic error is returned by the round-tripper for
*every* middleware, i.e. without any downstream call being observable. -/
theorem parseQueryRangeRequest_validation :
    (∀ v : String, goNumericString v = false →
      parseTime v = .error ("cannot parse \"" ++ v ++ "\" to a valid timestamp")) ∧
    (∀ v : String, goNumericString v = false →
      parseDurationMs v = .error ("cannot parse \"" ++ v ++ "\" to a valid duration")) ∧
    (∀ (f : httpFormValues) (e : String), parseTime f.start = .error e →
      parseQueryRangeRequest f = .error e) ∧
    (∀ (f : httpFormValues) (s : Int) (e : String),
      parseTime f.start = .ok s → parseTime f.endTs = .error e →
      parseQueryRangeRequest f = .error e) ∧
    (∀ (f : httpFormValues) (s e2 : Int),
      parseTime f.start = .ok s → parseTime f.endTs = .ok e2 → e2 < s →
      parseQueryRangeRequest f = .error "end timestamp must not be before start time") ∧
    (∀ (f : httpFormValues) (s e2 : Int) (e : String),
      parseTime f.start = .ok s → parseTime f.endTs = .ok e2 → ¬ e2 < s →
      parseDurationMs f.step = .error e →
      parseQueryRangeRequest f = .error e) ∧
    (∀ (f : httpFormValues) (s e2 st : Int),
      parseTime f.start = .ok s → parseTime f.endTs = .ok e2 → ¬ e2 < s →
      parseDurationMs f.step = .ok st → st ≤ 0 →
      parseQueryRangeRequest f =
        .error "zero or negative query resolution step widths are not accepted. Try a positive integer") ∧
    (∀ (f : httpFormValues) (s e2 st : Int),
      parseTime f.start = .ok s → parseTime f.endTs = .ok e2 → ¬ e2 < s →
      parseDurationMs f.step = .ok st → ¬ st ≤ 0 → Int.tdiv (e2 - s) st > 11000 →
      parseQueryRangeRequest f =
        .error "exceeded maximum resolution of 11,000 points per timeseries. Try decreasing the query resolution (?step=XX)") ∧
    (∀ (f : httpFormValues) (s e2 st : Int),
      parseTime f.start = .ok s → parseTime f.endTs = .ok e2 → ¬ e2 < s →
      parseDurationMs f.step = .ok st → ¬ st ≤ 0 → ¬ Int.tdiv (e2 - s) st > 11000 →
      parseQueryRangeRequest f = .ok ⟨s, e2, st, f.query⟩) ∧
    (∀ (mid : queryRangeRequest → Except String queryRangeResponse)
        (f : httpFormValues) (e : String),
      parseQueryRangeRequest f = .error e →
      queryRangeRoundTrip mid f = .error e) := by
  refine ⟨?_, ?_, ?_, ?_, ?_, ?_, ?_, ?_, ?_, ?_⟩
  · intro v hv; simp [parseTime, hv]
  · intro v hv; simp [parseDurationMs, hv]
  · intro f e h; simp [parseQueryRangeRequest, h]
  · intro f s e hs h; simp [parseQueryRangeRequest, hs, h]
  · intro f s e2 hs he hlt; simp [parseQueryRangeRequest, hs, he, if_pos hlt]
  · intro f s e2 e hs he hge h; simp [parseQueryRangeRequest, hs, he, if_neg hge, h]
  · intro f s e2 st hs he hge h hst
    simp [parseQueryRangeRequest, hs, he, if_neg hge, h, if_pos hst]
  · intro f s e2 st hs he hge h hst hcap
    simp [parseQueryRangeRequest, hs, he, if_neg hge, h, if_neg hst, if_pos hcap]
  · intro f s e2 st hs he hge h hst hcap
    simp [parseQueryRangeRequest, hs, he, if_neg hge, h, if_neg hst, if_neg hcap]
  · intro mid f e h; simp [queryRangeRoundTrip, h]

/-- C9 (witness): the validation messages and short-circuiting at the test
inputs of the repository's round-trip test — an unparseable `start` wins even
with other fields present, end-before-start wins over an unparseable `step`,
the resolution cap fires, a good request parses, and a failed parse is
returned for an arbitrary middleware. -/
theorem parseQueryRangeRequest_validation_witness :
    parseQueryRangeRequest ⟨"foo", "0", "15", "up"⟩ =
      .error "cannot parse \"foo\" to a valid timestamp" ∧
    parseQueryRangeRequest ⟨"123", "0", "junk", "up"⟩ =
      .error "end timestamp must not be before start time" ∧
    parseQueryRangeRequest ⟨"0", "11001", "1", "up"⟩ =
      .error "exceeded maximum resolution of 11,000 points per timeseries. Try decreasing the query resolution (?step=XX)" ∧
    parseQueryRangeRequest ⟨"1536673680", "1536760200", "120",
        "sum(container_memory_rss) by (namespace)"⟩ =
      .ok ⟨1536673680000, 1536760200000, 120000,
        "sum(container_memory_rss) by (namespace)"⟩ ∧
    queryRangeRoundTrip (fun _ => .ok ⟨.valVector, none, .vector []⟩)
        ⟨"foo", "0", "15", "up"⟩ =
      .error "cannot parse \"foo\" to a valid timestamp" := by
  refine ⟨?_, ?_, ?_, ?_, ?_⟩
  · exact parseQueryRangeRequest_validation.2.2.1 ⟨"foo", "0", "15", "up"⟩
      "cannot parse \"foo\" to a valid timestamp" rfl
  · exact parseQueryRangeRequest_validation.2.2.2.2.1 ⟨"123", "0", "junk", "up"⟩
      123000 0 rfl rfl (by decide)
  · exact parseQueryRangeRequest_validation.2.2.2.2.2.2.2.1 ⟨"0", "11001", "1", "up"⟩
      0 11001000 1000 rfl rfl (by decide) rfl (by decide) (by decide)
  · exact parseQueryRangeRequest_validation.2.2.2.2.2.2.2.2.1
      ⟨"1536673680", "1536760200", "120", "sum(container_memory_rss) by (namespace)"⟩
      1536673680000 1536760200000 120000 rfl rfl (by decide) rfl (by decide) (by decide)
  · exact parseQueryRangeRequest_validation.2.2.2.2.2.2.2.2.2
      (fun _ => .ok ⟨.valVector, none, .vector []⟩) ⟨"foo", "0", "15", "up"⟩
      "cannot parse \"foo\" to a valid timestamp" rfl
